import Mathlib

/-!
Verification of the S3 bucket-policy manager (s3_policy_manager.py).

The script manipulates small JSON documents: it loads a policy template,
substitutes a bucket-name placeholder into its strings, merges the template
statement into a bucket's current policy (skipping when a statement with the
same Sid is already present), removes statements by Sid (deleting the policy
when the statement list becomes empty), and backs up / restores policies to
and from local JSON files.

Shallow embedding conventions:
* JSON values are `Json` below; numbers are modelled as integers (no claim
  touches float-specific behaviour, and Python's cross-type equalities
  `True == 1`, `1 == 1.0` are not modelled — no claim compares Sids of
  different JSON types).
* Python's `json` module decodes JSON `null` to `None`, which is also what
  `dict.get` answers for a missing key; `Json.pyGet` therefore answers
  `Json.null` for a missing key, exactly conflating the two as Python does.
  Subscript access `obj[key]` (`Json.item`) still distinguishes them by
  raising KeyError.
* The remote store is `S3`: a map from bucket name to an optional policy
  document, plus per-bucket failure flags standing for the ClientError
  exceptions that get/put/delete calls may raise (access denied, network
  fault).  `get_bucket_policy` answering NoSuchBucketPolicy is the `none`
  policy, as in `get_current_policy` in the source.
* JSON (de)serialization at the store boundary (`json.dumps`/`json.loads`)
  and at the backup-file boundary (`json.dump`/`json.load`) is modelled as
  the identity on `Json` values ("modulo JSON re-serialization").
* Python exceptions inside the per-bucket body (KeyError, IndexError,
  AttributeError, TypeError, ClientError) are modelled with
  `Except String`; the per-bucket `except Exception` handler that turns
  them into an error result is `applyStep` / `removeStep`.
* Python truthiness (`if policy:`) is `Json.truthy` / `truthyOpt`:
  None, `{}`, `[]`, `""`, `0`, `False` are falsy.
* `datetime.now().strftime(..)` is an explicit timestamp argument.
-/

namespace S3PM

/-- A JSON value as handled by the Python `json` module, with numbers
modelled as integers.  Objects keep insertion order, as Python dicts do. -/
inductive Json : Type where
  | null : Json
  | bool : Bool → Json
  | num : Int → Json
  | str : String → Json
  | arr : List Json → Json
  | obj : List (String × Json) → Json

namespace Json

mutual
/-- Python `==` on decoded JSON values (structural equality). -/
def beq : Json → Json → Bool
  | .null, .null => true
  | .bool a, .bool b => a == b
  | .num a, .num b => a == b
  | .str a, .str b => a == b
  | .arr a, .arr b => beqArr a b
  | .obj a, .obj b => beqObj a b
  | _, _ => false
def beqArr : List Json → List Json → Bool
  | [], [] => true
  | x :: xs, y :: ys => beq x y && beqArr xs ys
  | _, _ => false
def beqObj : List (String × Json) → List (String × Json) → Bool
  | [], [] => true
  | (k, v) :: xs, (k2, v2) :: ys => k == k2 && beq v v2 && beqObj xs ys
  | _, _ => false
end

/-- First-match lookup in an object's key/value list, as Python dict lookup
(keys produced by `json.loads` are unique, so first match is the match). -/
def lookupKV : List (String × Json) → String → Option Json
  | [], _ => none
  | (k, v) :: rest, key => if k = key then some v else lookupKV rest key

/-- Replace the value stored under a key, as Python dict assignment
`d[k] = v` (insertion order of an existing key is kept). -/
def setKV : List (String × Json) → String → Json → List (String × Json)
  | [], key, v => [(key, v)]
  | (k, w) :: rest, key, v =>
      if k = key then (key, v) :: rest else (k, w) :: setKV rest key v

/-- Python truthiness of a JSON value: `None`, `False`, `0`, `""`, `[]` and
an empty dict are falsy, everything else truthy. -/
def truthy : Json → Bool
  | .null => false
  | .bool b => b
  | .num n => n != 0
  | .str s => s ≠ ""
  | .arr xs => !xs.isEmpty
  | .obj kvs => !kvs.isEmpty

/-- Python subscript access `obj[key]`: KeyError when the key is missing,
TypeError when the value is not a dict. -/
def item (j : Json) (key : String) : Except String Json :=
  match j with
  | .obj kvs =>
      match lookupKV kvs key with
      | some v => .ok v
      | none => .error ("KeyError: " ++ key)
  | _ => .error ("TypeError: value is not subscriptable by " ++ key)

/-- Python `dict.get(key)`: the stored value, with `None` (`Json.null`) for
a missing key — indistinguishable from a stored JSON `null`, as in Python —
and AttributeError when the receiver is not a dict. -/
def pyGet (j : Json) (key : String) : Except String Json :=
  match j with
  | .obj kvs => .ok ((lookupKV kvs key).getD .null)
  | _ => .error "AttributeError: value has no attribute get"

/-- Python subscript access `xs[i]` for a non-negative literal index. -/
def index (j : Json) (i : Nat) : Except String Json :=
  match j with
  | .arr xs =>
      match xs.get? i with
      | some v => .ok v
      | none => .error "IndexError: list index out of range"
  | _ => .error "TypeError: value is not indexable"

/-- View a JSON value as the list it iterates as.  The source only ever
iterates and extends statement lists, so non-list values are an error here
(in Python an exotic non-list iterable would behave differently, but no
claim and no realistic policy document reaches that case). -/
def asList : Json → Except String (List Json)
  | .arr xs => .ok xs
  | _ => .error "TypeError: value is not a list"

/-- Dict assignment `d[key] = v` on an object.  Only ever applied to values
on which `item` already succeeded (hence objects); on non-objects it is the
identity, a case no execution path reaches. -/
def objSet (j : Json) (key : String) (v : Json) : Json :=
  match j with
  | .obj kvs => .obj (setKV kvs key v)
  | _ => j

/-- Rendering of a JSON value inside a Python f-string.  Exact for the
scalars a Sid can realistically be; composite values are abbreviated (no
claim inspects a message built from a composite Sid). -/
def pyStr : Json → String
  | .null => "None"
  | .bool true => "True"
  | .bool false => "False"
  | .num n => toString n
  | .str s => s
  | .arr _ => "<list>"
  | .obj _ => "<dict>"

end Json

/-- Python `str.replace(pat, repl)` on character lists: scan left to right,
replace each non-overlapping occurrence of `pat`, leftmost-first.  The
source only calls this with the fixed non-empty pattern of
`replace_placeholders`, so the empty-pattern behaviour of Python
(interleaving) is irrelevant and guarded away. -/
def replaceAll (pat repl : List Char) : List Char → List Char
  | [] => []
  | c :: cs =>
    if h : pat ≠ [] ∧ pat.isPrefixOf (c :: cs) then
      repl ++ replaceAll pat repl ((c :: cs).drop pat.length)
    else
      c :: replaceAll pat repl cs
termination_by s => s.length
decreasing_by
  · simp only [List.length_drop]
    have hp : 0 < pat.length := List.length_pos.mpr h.1
    simp only [List.length_cons]
    omega
  · simp

/-- Python `s.replace(pat, repl)` on strings. -/
def pyReplace (s pat repl : String) : String :=
  ⟨replaceAll pat.data repl.data s.data⟩

/-- The placeholder token of the template loader. -/
def placeholder : String := "${bucket_name}"

mutual
/-- The recursive `replace_placeholders` closure of `load_policy_template`:
substitute the bucket name for the placeholder in every string value,
traverse dicts (keys untouched) and lists, pass other scalars through. -/
def replace_placeholders (bucket_name : String) : Json → Json
  | .null => .null
  | .bool b => .bool b
  | .num n => .num n
  | .str s => .str (pyReplace s placeholder bucket_name)
  | .arr xs => .arr (replacePlaceholdersArr bucket_name xs)
  | .obj kvs => .obj (replacePlaceholdersObj bucket_name kvs)
def replacePlaceholdersArr (bucket_name : String) : List Json → List Json
  | [] => []
  | x :: xs => replace_placeholders bucket_name x :: replacePlaceholdersArr bucket_name xs
def replacePlaceholdersObj (bucket_name : String) :
    List (String × Json) → List (String × Json)
  | [] => []
  | (k, v) :: kvs =>
      (k, replace_placeholders bucket_name v) :: replacePlaceholdersObj bucket_name kvs
end

/-- `load_policy_template` after the template file has been read and parsed
(a missing or invalid template file terminates the whole process via
`sys.exit`, outside the per-bucket model): substitute the placeholder. -/
def load_policy_template (template : Json) (bucket_name : String) : Json :=
  replace_placeholders bucket_name template

/-- The remote store: each bucket's policy document (`none` when
`get_bucket_policy` answers NoSuchBucketPolicy), plus flags saying which
buckets' get/put/delete calls raise a ClientError (access denied, network
fault, ...). -/
structure S3 where
  policies : String → Option Json
  getFails : String → Bool
  putFails : String → Bool
  delFails : String → Bool

/-- `get_current_policy`: the current policy, `none` when there is none;
raises on any ClientError other than NoSuchBucketPolicy. -/
def get_current_policy (s : S3) (bucket_name : String) : Except String (Option Json) :=
  if s.getFails bucket_name then .error "ClientError: get_bucket_policy"
  else .ok (s.policies bucket_name)

/-- `s3_client.put_bucket_policy`: store the document, or raise. -/
def putBucketPolicy (s : S3) (bucket_name : String) (policy : Json) : Except String S3 :=
  if s.putFails bucket_name then .error "ClientError: put_bucket_policy"
  else .ok { s with policies := Function.update s.policies bucket_name (some policy) }

/-- `s3_client.delete_bucket_policy`: remove the document, or raise. -/
def deleteBucketPolicy (s : S3) (bucket_name : String) : Except String S3 :=
  if s.delFails bucket_name then .error "ClientError: delete_bucket_policy"
  else .ok { s with policies := Function.update s.policies bucket_name none }

/-- Truthiness of `get_current_policy`'s answer (`if current_policy:`). -/
def truthyOpt : Option Json → Bool
  | none => false
  | some j => j.truthy

/-- The backup file name
`policy_backups_<account_id>/bucket_policy_backup_<bucket>_<timestamp>.json`
built by `ensure_backup_directory` and `backup_policy`. -/
def backupFilename (account_id bucket_name timestamp : String) : String :=
  "policy_backups_" ++ account_id ++ "/bucket_policy_backup_" ++ bucket_name
    ++ "_" ++ timestamp ++ ".json"

/-- `backup_policy`: when the policy is truthy, write it (pretty-printed;
modelled modulo serialization as the `Json` value itself) to the timestamped
file and return the file name, else return `None` and write nothing.  The
result pairs the written file's name with its contents. -/
def backup_policy (policy : Option Json) (bucket_name account_id timestamp : String) :
    Option (String × Json) :=
  match policy with
  | some p =>
      if p.truthy then some (backupFilename account_id bucket_name timestamp, p)
      else none
  | none => none

/-- A per-bucket result dict: `{'status': 'success', 'backup_file': ...}`,
`{'status': 'skipped', 'message': ...}` or `{'status': 'error', 'error': ...}`
(remove/restore successes carry no backup file: `success none`). -/
inductive PResult : Type where
  | success : Option String → PResult
  | skipped : String → PResult
  | error : String → PResult
  deriving DecidableEq

/-- The Python expression `new_policy_statement['Statement'][0]['Sid']`. -/
def templateSid (t : Json) : Except String Json :=
  do
    let stJ ← t.item "Statement"
    let st0 ← stJ.index 0
    st0.item "Sid"

/-- Tail of the duplicate check after the template Sid has been evaluated
once (it is a pure expression, re-evaluated identically by the Python
generator on each iteration). -/
def anyMatchGo (tv : Json) : List Json → Except String Bool
  | [] => .ok false
  | st :: rest =>
      do
        let sv ← st.pyGet "Sid"
        if sv.beq tv then .ok true else anyMatchGo tv rest

/-- The duplicate check
`any(stmt.get('Sid') == new_policy_statement['Statement'][0]['Sid'] for stmt in current_policy['Statement'])`.
Python generators are lazy: over an empty statement list nothing is
evaluated and the answer is `False`; on each iteration `stmt.get('Sid')`
is evaluated before the template-Sid expression. -/
def policyExistsCheck (tSid : Except String Json) : List Json → Except String Bool
  | [] => .ok false
  | st :: rest =>
      do
        let sv ← st.pyGet "Sid"
        let tv ← tSid
        if sv.beq tv then .ok true else anyMatchGo tv rest

/-- The try-block body of one iteration of the `apply_policy` loop. -/
def applyOneBody (s : S3) (bucket_name : String) (template : Json) (backup : Bool)
    (account_id timestamp : String) : Except String (S3 × PResult) :=
  do
    let current ← get_current_policy s bucket_name
    let backup_file : Option String :=
      if backup && truthyOpt current then
        (backup_policy current bucket_name account_id timestamp).map Prod.fst
      else none
    let new_policy_statement := load_policy_template template bucket_name
    match current with
    | some cp =>
      if cp.truthy then do
        let stJ ← cp.item "Statement"
        let stmts ← stJ.asList
        let policy_exists ← policyExistsCheck (templateSid new_policy_statement) stmts
        if policy_exists then do
          let sv ← templateSid new_policy_statement
          pure (s, .skipped ("Policy with Sid " ++ sv.pyStr ++ " already exists"))
        else do
          let newJ ← new_policy_statement.item "Statement"
          let newStmts ← newJ.asList
          let final_policy := cp.objSet "Statement" (.arr (stmts ++ newStmts))
          let s2 ← putBucketPolicy s bucket_name final_policy
          pure (s2, .success backup_file)
      else do
        let s2 ← putBucketPolicy s bucket_name new_policy_statement
        pure (s2, .success backup_file)
    | none => do
        let s2 ← putBucketPolicy s bucket_name new_policy_statement
        pure (s2, .success backup_file)

/-- One iteration of the `apply_policy` loop: the `except Exception`
handler turns any raised exception into an error result for the bucket,
leaving the store untouched. -/
def applyStep (s : S3) (bucket_name : String) (template : Json) (backup : Bool)
    (account_id timestamp : String) : S3 × PResult :=
  match applyOneBody s bucket_name template backup account_id timestamp with
  | .ok r => r
  | .error e => (s, .error e)

/-- `apply_policy`: process the selected buckets in order, accumulating the
per-bucket results (the Python results dict, in insertion order; the
selector yields distinct buckets, under which the association list below is
exactly that dict).  `timestamps` gives the `datetime.now()` reading of
each bucket's backup. -/
def apply_policy (s : S3) (bucket_list : List String) (template : Json) (backup : Bool)
    (account_id : String) (timestamps : String → String) : S3 × List (String × PResult) :=
  match bucket_list with
  | [] => (s, [])
  | b :: rest =>
    let step := applyStep s b template backup account_id (timestamps b)
    let restRun := apply_policy step.1 rest template backup account_id timestamps
    (restRun.1, (b, step.2) :: restRun.2)

/-- The list comprehension
`[stmt for stmt in current_policy['Statement'] if stmt.get('Sid') != sid]`:
keep every statement whose Sid (with `None` for an absent or null Sid)
differs from the target string; a non-dict statement raises AttributeError. -/
def filterStmts (sid : String) : List Json → Except String (List Json)
  | [] => .ok []
  | st :: rest =>
      do
        let sv ← st.pyGet "Sid"
        let rest2 ← filterStmts sid rest
        if sv.beq (.str sid) then .ok rest2 else .ok (st :: rest2)

/-- The try-block body of one iteration of the `remove_policy` loop.  The
source mutates `current_policy['Statement']` to the filtered list before
comparing counts; the mutated document only reaches the store on the
non-skipped, non-empty branch, which uses it as `cp2` below. -/
def removeOneBody (s : S3) (bucket_name sid : String) : Except String (S3 × PResult) :=
  do
    let current ← get_current_policy s bucket_name
    match current with
    | some cp =>
      if cp.truthy then do
        let stJ ← cp.item "Statement"
        let stmts ← stJ.asList
        let filtered ← filterStmts sid stmts
        let cp2 := cp.objSet "Statement" (.arr filtered)
        if filtered.length = stmts.length then
          pure (s, .skipped ("No policy with Sid " ++ sid ++ " found"))
        else
          if !filtered.isEmpty then do
            let s2 ← putBucketPolicy s bucket_name cp2
            pure (s2, .success none)
          else do
            let s2 ← deleteBucketPolicy s bucket_name
            pure (s2, .success none)
      else pure (s, .skipped "No policy exists")
    | none => pure (s, .skipped "No policy exists")

/-- One iteration of the `remove_policy` loop, exceptions captured as an
error result. -/
def removeStep (s : S3) (bucket_name sid : String) : S3 × PResult :=
  match removeOneBody s bucket_name sid with
  | .ok r => r
  | .error e => (s, .error e)

/-- `remove_policy`: process the selected buckets in order. -/
def remove_policy (s : S3) (bucket_list : List String) (sid : String) :
    S3 × List (String × PResult) :=
  match bucket_list with
  | [] => (s, [])
  | b :: rest =>
    let step := removeStep s b sid
    let restRun := remove_policy step.1 rest sid
    (restRun.1, (b, step.2) :: restRun.2)

/-- `restore_policy`: read the backup file (its parsed contents, or the
read/parse failure, is `file_contents`) and upload it unconditionally,
replacing any existing policy; any exception becomes an error result. -/
def restore_policy (s : S3) (bucket_name : String) (file_contents : Except String Json) :
    S3 × PResult :=
  match (do
      let policy ← file_contents
      let s2 ← putBucketPolicy s bucket_name policy
      Except.ok (s2, PResult.success none) : Except String (S3 × PResult)) with
  | .ok r => r
  | .error e => (s, .error e)

/-- Statement count of a stored policy document, when it is a document
with a Statement list. -/
def stmtCount : Option Json → Option Nat
  | none => none
  | some p =>
    match p.item "Statement" with
    | .ok (.arr xs) => some xs.length
    | _ => none

/-- Shape of a `datetime.now().strftime('%Y%m%d_%H%M%S')` reading: eight
digits, an underscore, six digits — fourteen digits in all. -/
def TimestampWF (ts : String) : Prop :=
  ∃ d8 d6 : String, d8.length = 8 ∧ d6.length = 6 ∧
    (∀ c ∈ d8.data, c.isDigit) ∧ (∀ c ∈ d6.data, c.isDigit) ∧
    ts = d8 ++ "_" ++ d6

/-- The backup-path naming pattern
`policy_backups_<account>/bucket_policy_backup_<bucket>_<14-digit timestamp>.json`. -/
def BackupPathMatches (account_id bucket_name path : String) : Prop :=
  ∃ ts, TimestampWF ts ∧ path = backupFilename account_id bucket_name ts

/-- A statement list on which every `stmt.get('Sid')` lookup succeeds,
i.e. every statement is a dict. -/
def StmtsWF (stmts : List Json) : Prop :=
  ∀ st ∈ stmts, ∃ o, st.pyGet "Sid" = .ok o

/-- The keep-predicate of the removal filter: a statement survives iff its
Sid lookup does not answer the target (the error case never arises under
`StmtsWF`). -/
def sidKeeps (sid : String) (st : Json) : Bool :=
  match st.pyGet "Sid" with
  | .ok o => !o.beq (.str sid)
  | .error _ => true

/-- Occurrence check: does `pat` occur as a contiguous substring of `s`? -/
def containsSub (pat : List Char) : List Char → Bool
  | [] => pat.isEmpty
  | c :: cs => pat.isPrefixOf (c :: cs) || containsSub pat cs

mutual
/-- No string value anywhere in the document contains the placeholder. -/
def phFree : Json → Bool
  | .null => true
  | .bool _ => true
  | .num _ => true
  | .str s => !containsSub placeholder.data s.data
  | .arr xs => phFreeArr xs
  | .obj kvs => phFreeObj kvs
def phFreeArr : List Json → Bool
  | [] => true
  | x :: xs => phFree x && phFreeArr xs
def phFreeObj : List (String × Json) → Bool
  | [] => true
  | (_, v) :: kvs => phFree v && phFreeObj kvs
end

/-- Join segments, placing a separator between consecutive segments. -/
def sepJoin (sep : List Char) : List (List Char) → List Char
  | [] => []
  | [x] => x
  | x :: xs => x ++ sep ++ sepJoin sep xs

mutual
/-- Specification relation for placeholder substitution, written from the
spec's words: every string value decomposes into placeholder-free segments
joined by the placeholder, and the corresponding output string joins the
same segments with the bucket name — every occurrence of the placeholder
replaced by the bucket name, all surrounding text kept; non-string scalar
values are unchanged; lists are traversed pointwise; objects are traversed
pointwise with their keys unchanged. -/
inductive SubstSpec (b : String) : Json → Json → Prop where
  | null : SubstSpec b .null .null
  | bool : ∀ x, SubstSpec b (.bool x) (.bool x)
  | num : ∀ n, SubstSpec b (.num n) (.num n)
  | str : ∀ segs : List (List Char), segs ≠ [] →
      (∀ seg ∈ segs, containsSub placeholder.data seg = false) →
      SubstSpec b (.str ⟨sepJoin placeholder.data segs⟩) (.str ⟨sepJoin b.data segs⟩)
  | arr : ∀ xs ys, SubstSpecArr b xs ys → SubstSpec b (.arr xs) (.arr ys)
  | obj : ∀ kvs kvs2, SubstSpecObj b kvs kvs2 → SubstSpec b (.obj kvs) (.obj kvs2)
inductive SubstSpecArr (b : String) : List Json → List Json → Prop where
  | nil : SubstSpecArr b [] []
  | cons : ∀ x y xs ys, SubstSpec b x y → SubstSpecArr b xs ys →
      SubstSpecArr b (x :: xs) (y :: ys)
inductive SubstSpecObj (b : String) :
    List (String × Json) → List (String × Json) → Prop where
  | nil : SubstSpecObj b [] []
  | cons : ∀ (k : String) (v w : Json) kvs kvs2, SubstSpec b v w →
      SubstSpecObj b kvs kvs2 → SubstSpecObj b ((k, v) :: kvs) ((k, w) :: kvs2)
end

/-- Fixture: a statement with Sid "A". -/
def stmtA : Json := .obj [("Sid", .str "A")]

/-- Fixture: a statement with Sid "B". -/
def stmtB : Json := .obj [("Sid", .str "B")]

/-- Fixture: a policy whose single statement has Sid "A". -/
def polA : Json := .obj [("Statement", .arr [stmtA])]

/-- Fixture: a policy with statements "A" and "B". -/
def polAB : Json :=
  .obj [("Version", .str "2012-10-17"), ("Statement", .arr [stmtA, stmtB])]

/-- Fixture: a template whose single statement has Sid "A". -/
def tmplA : Json :=
  .obj [("Statement", .arr [.obj [("Sid", .str "A"), ("Effect", .str "Allow")]])]

/-- Fixture: a template whose single statement carries no Sid key. -/
def tmplNoSid : Json := .obj [("Statement", .arr [.obj [("Effect", .str "Allow")]])]

/-- Fixture: a policy document with an empty statement list. -/
def polEmptyStmts : Json := .obj [("Statement", .arr [])]

/-- Fixture: a store holding the given policy on bucket "b", no failures. -/
def storeWith (p : Option Json) : S3 :=
  { policies := fun b => if b = "b" then p else none,
    getFails := fun _ => false, putFails := fun _ => false, delFails := fun _ => false }

/-- Fixture: an empty store whose bucket "bad" fails every get call. -/
def storeGetFails : S3 :=
  { policies := fun _ => none, getFails := fun b => b == "bad",
    putFails := fun _ => false, delFails := fun _ => false }

namespace Json

mutual
theorem beq_iff : ∀ a b : Json, beq a b = true ↔ a = b
  | .null, b => by cases b <;> simp [beq]
  | .bool x, b => by cases b <;> simp [beq]
  | .num x, b => by cases b <;> simp [beq]
  | .str x, b => by cases b <;> simp [beq]
  | .arr xs, b => by
      cases b <;> simp [beq]
      exact beqArr_iff xs _
  | .obj xs, b => by
      cases b <;> simp [beq]
      exact beqObj_iff xs _
theorem beqArr_iff : ∀ a b : List Json, beqArr a b = true ↔ a = b
  | [], b => by cases b <;> simp [beqArr]
  | x :: xs, b => by
      cases b <;> simp [beqArr]
      exact ⟨fun h => ⟨(beq_iff _ _).1 h.1, (beqArr_iff _ _).1 h.2⟩,
             fun h => ⟨(beq_iff _ _).2 h.1, (beqArr_iff _ _).2 h.2⟩⟩
theorem beqObj_iff : ∀ a b : List (String × Json), beqObj a b = true ↔ a = b
  | [], b => by cases b <;> simp [beqObj]
  | (k, v) :: xs, b => by
      cases b with
      | nil => simp [beqObj]
      | cons y ys =>
        obtain ⟨k2, v2⟩ := y
        simp [beqObj]
        constructor
        · rintro ⟨⟨h1, h2⟩, h3⟩
          exact ⟨⟨h1, (beq_iff _ _).1 h2⟩, (beqObj_iff _ _).1 h3⟩
        · rintro ⟨⟨h1, h2⟩, h3⟩
          exact ⟨⟨h1, (beq_iff _ _).2 h2⟩, (beqObj_iff _ _).2 h3⟩
end

instance instDecEqJson : DecidableEq Json := fun a b => decidable_of_iff _ (beq_iff a b)

theorem beq_eq_decide (a b : Json) : beq a b = decide (a = b) := by
  by_cases h : a = b
  · subst h
    simp [(beq_iff a a).2 rfl]
  · simp only [h, decide_eq_false_iff_not.mpr h]
    exact Bool.eq_false_iff.mpr (fun hb => h ((beq_iff a b).1 hb))

theorem item_ok_elim {p : Json} {k : String} {v : Json} (h : p.item k = .ok v) :
    ∃ kvs, p = .obj kvs ∧ lookupKV kvs k = some v := by
  cases p <;> simp [item] at h
  case obj kvs =>
    cases hk : lookupKV kvs k <;> simp [hk] at h
    exact ⟨kvs, rfl, by simp [hk, h]⟩

theorem truthy_of_item_ok {p : Json} {k : String} {v : Json} (h : p.item k = .ok v) :
    p.truthy = true := by
  obtain ⟨kvs, rfl, hl⟩ := item_ok_elim h
  cases kvs with
  | nil => simp [lookupKV] at hl
  | cons a rest => simp [truthy]

theorem pyGet_of_item_ok {p : Json} {k : String} {v : Json} (h : p.item k = .ok v) :
    p.pyGet k = .ok v := by
  obtain ⟨kvs, rfl, hl⟩ := item_ok_elim h
  simp [pyGet, hl]

theorem lookupKV_setKV_self (kvs : List (String × Json)) (k : String) (v : Json) :
    lookupKV (setKV kvs k v) k = some v := by
  induction kvs with
  | nil => simp [setKV, lookupKV]
  | cons a rest ih =>
    obtain ⟨k2, w⟩ := a
    by_cases hk : k2 = k
    · simp [setKV, hk, lookupKV]
    · simp [setKV, hk, lookupKV, ih]

theorem objSet_item_self {p : Json} {k : String} {v : Json} (h : p.item k = .ok v)
    (w : Json) : (p.objSet k w).item k = .ok w := by
  obtain ⟨kvs, rfl, _⟩ := item_ok_elim h
  simp [objSet, item, lookupKV_setKV_self]

theorem objSet_truthy {p : Json} {k : String} {v : Json} (h : p.item k = .ok v)
    (w : Json) : (p.objSet k w).truthy = true :=
  truthy_of_item_ok (objSet_item_self h w)

end Json

@[simp] theorem exceptOk_bind {α β : Type} (a : α) (f : α → Except String β) :
    (Except.ok (ε := String) a >>= f) = f a := rfl

@[simp] theorem exceptError_bind {α β : Type} (e : String) (f : α → Except String β) :
    (Except.error (α := α) e >>= f) = Except.error (α := β) e := rfl

theorem policyExistsCheck_eq_go (v : Json) (stmts : List Json) :
    policyExistsCheck (.ok v) stmts = anyMatchGo v stmts := by
  cases stmts with
  | nil => rfl
  | cons st rest => rfl

theorem anyMatchGo_true {v : Json} {stmts : List Json} (hwf : StmtsWF stmts)
    (hex : ∃ st ∈ stmts, st.pyGet "Sid" = .ok v) :
    anyMatchGo v stmts = .ok true := by
  induction stmts with
  | nil => simp at hex
  | cons st rest ih =>
    obtain ⟨o, ho⟩ := hwf st (List.mem_cons_self _ _)
    by_cases hv : o = v
    · simp [anyMatchGo, ho, Json.beq_iff, hv]
    · obtain ⟨w, hw, hws⟩ := hex
      rcases List.mem_cons.mp hw with h | h
      · subst h; rw [hws] at ho; simp at ho; exact absurd ho.symm hv
      · have := ih (fun x hx => hwf x (List.mem_cons_of_mem _ hx)) ⟨w, h, hws⟩
        simp [anyMatchGo, ho, Json.beq_iff, hv, this]

theorem anyMatchGo_false {v : Json} {stmts : List Json}
    (h : ∀ st ∈ stmts, ∃ o, st.pyGet "Sid" = .ok o ∧ o ≠ v) :
    anyMatchGo v stmts = .ok false := by
  induction stmts with
  | nil => rfl
  | cons st rest ih =>
    obtain ⟨o, ho, hv⟩ := h st (List.mem_cons_self _ _)
    have := ih (fun x hx => h x (List.mem_cons_of_mem _ hx))
    simp [anyMatchGo, ho, Json.beq_iff, hv, this]

theorem sidKeeps_true_iff {sid : String} {st : Json} {o : Json}
    (ho : st.pyGet "Sid" = .ok o) :
    sidKeeps sid st = true ↔ o ≠ .str sid := by
  simp [sidKeeps, ho, Json.beq_eq_decide]

theorem pyGet_ne_of_sidKeeps {sid : String} {st : Json}
    (h : sidKeeps sid st = true) : st.pyGet "Sid" ≠ .ok (.str sid) := by
  intro hc
  rw [(sidKeeps_true_iff hc)] at h
  exact h rfl

theorem filterStmts_ok {sid : String} {stmts : List Json} (hwf : StmtsWF stmts) :
    filterStmts sid stmts = .ok (stmts.filter (sidKeeps sid)) := by
  induction stmts with
  | nil => rfl
  | cons st rest ih =>
    obtain ⟨o, ho⟩ := hwf st (List.mem_cons_self _ _)
    have hrest := ih (fun x hx => hwf x (List.mem_cons_of_mem _ hx))
    by_cases hv : o = .str sid
    · simp [filterStmts, ho, hrest, List.filter, sidKeeps, Json.beq_eq_decide, hv]
    · simp [filterStmts, ho, hrest, List.filter, sidKeeps, Json.beq_eq_decide, hv]

theorem replaceAll_of_not_contains (pat repl : List Char) :
    ∀ s : List Char, containsSub pat s = false → replaceAll pat repl s = s := by
  intro s
  induction s with
  | nil => intro _; simp [replaceAll]
  | cons c cs ih =>
    intro h
    simp [containsSub] at h
    rw [replaceAll]
    simp [h.1, ih h.2]

theorem pyReplace_id (s pat repl : String) (h : containsSub pat.data s.data = false) :
    pyReplace s pat repl = s := by
  unfold pyReplace
  rw [replaceAll_of_not_contains pat.data repl.data s.data h]

mutual
theorem replace_placeholders_id (b : String) :
    ∀ t : Json, phFree t = true → replace_placeholders b t = t
  | .null, _ => rfl
  | .bool x, _ => rfl
  | .num n, _ => rfl
  | .str s, h => by
      simp [phFree] at h
      simp [replace_placeholders, pyReplace_id s placeholder b h]
  | .arr xs, h => by
      simp [phFree] at h
      simp [replace_placeholders, replacePlaceholdersArr_id b xs h]
  | .obj kvs, h => by
      simp [phFree] at h
      simp [replace_placeholders, replacePlaceholdersObj_id b kvs h]
theorem replacePlaceholdersArr_id (b : String) :
    ∀ xs : List Json, phFreeArr xs = true → replacePlaceholdersArr b xs = xs
  | [], _ => rfl
  | x :: xs, h => by
      simp [phFreeArr] at h
      simp [replacePlaceholdersArr, replace_placeholders_id b x h.1,
        replacePlaceholdersArr_id b xs h.2]
theorem replacePlaceholdersObj_id (b : String) :
    ∀ kvs : List (String × Json), phFreeObj kvs = true → replacePlaceholdersObj b kvs = kvs
  | [], _ => rfl
  | (k, v) :: kvs, h => by
      simp [phFreeObj] at h
      simp [replacePlaceholdersObj, replace_placeholders_id b v h.1,
        replacePlaceholdersObj_id b kvs h.2]
end

/-- Evaluation of one `apply_policy` iteration on a bucket with no current
policy: the substituted template is uploaded as-is, and (with backups
requested or not) no backup file is produced since there was nothing to
back up. -/
theorem applyStep_noPolicy_eval (s : S3) (b account_id ts : String) (t : Json) (bk : Bool)
    (hget : s.getFails b = false) (hp : s.policies b = none)
    (hput : s.putFails b = false) :
    applyStep s b t bk account_id ts =
      ({ s with policies := Function.update s.policies b (some (replace_placeholders b t)) },
       .success none) := by
  simp [applyStep, applyOneBody, get_current_policy, hget, hp, truthyOpt,
    load_policy_template, putBucketPolicy, hput, pure, Except.pure]

/-- Evaluation of one `apply_policy` iteration when an existing statement
shares the template's Sid: no store call is made and the result is the
skipped message. -/
theorem applyStep_skip_eval (s : S3) (b account_id ts : String) (t p sidV : Json)
    (stmts : List Json) (bk : Bool)
    (hget : s.getFails b = false) (hp : s.policies b = some p)
    (hstmt : p.item "Statement" = .ok (.arr stmts)) (hwf : StmtsWF stmts)
    (hts : templateSid (replace_placeholders b t) = .ok sidV)
    (hmatch : ∃ st ∈ stmts, st.pyGet "Sid" = .ok sidV) :
    applyStep s b t bk account_id ts =
      (s, .skipped ("Policy with Sid " ++ sidV.pyStr ++ " already exists")) := by
  have htr := Json.truthy_of_item_ok hstmt
  have hchk : policyExistsCheck (Except.ok sidV) stmts = .ok true := by
    rw [policyExistsCheck_eq_go]
    exact anyMatchGo_true hwf hmatch
  simp [applyStep, applyOneBody, get_current_policy, hget, hp, htr, hstmt,
    Json.asList, load_policy_template, hchk, hts, pure, Except.pure]

/-- Evaluation of one `apply_policy` iteration when the duplicate check
answers `False`: the template statements are appended to the existing list
and the merged document uploaded; the pre-mutation policy was backed up
when requested. -/
theorem applyStep_merge_eval (s : S3) (b account_id ts : String) (t p : Json)
    (stmts newStmts : List Json) (bk : Bool)
    (hget : s.getFails b = false) (hp : s.policies b = some p)
    (hstmt : p.item "Statement" = .ok (.arr stmts))
    (hchk : policyExistsCheck (templateSid (replace_placeholders b t)) stmts = .ok false)
    (hnew : (replace_placeholders b t).item "Statement" = .ok (.arr newStmts))
    (hput : s.putFails b = false) :
    applyStep s b t bk account_id ts =
      ({ s with
          policies :=
            Function.update s.policies b
              (some (p.objSet "Statement" (.arr (stmts ++ newStmts)))) },
       .success (if bk then some (backupFilename account_id b ts) else none)) := by
  have htr := Json.truthy_of_item_ok hstmt
  cases bk <;>
    simp [applyStep, applyOneBody, get_current_policy, hget, hp, htr, hstmt,
      Json.asList, load_policy_template, hchk, hnew, putBucketPolicy, hput,
      backup_policy, truthyOpt, pure, Except.pure]

/-- Evaluation of one `remove_policy` iteration on a well-formed stored
policy: the outcome is the skipped / upload-filtered / delete three-way
branch of the source. -/
theorem removeStep_eval (s : S3) (b sid : String) (p : Json) (stmts : List Json)
    (hget : s.getFails b = false) (hp : s.policies b = some p)
    (hstmt : p.item "Statement" = .ok (.arr stmts)) (hwf : StmtsWF stmts) :
    removeStep s b sid =
      (if (stmts.filter (sidKeeps sid)).length = stmts.length then
        (s, .skipped ("No policy with Sid " ++ sid ++ " found"))
      else if !(stmts.filter (sidKeeps sid)).isEmpty then
        match putBucketPolicy s b (p.objSet "Statement" (.arr (stmts.filter (sidKeeps sid)))) with
        | .ok s2 => (s2, .success none)
        | .error e => (s, .error e)
      else
        match deleteBucketPolicy s b with
        | .ok s2 => (s2, .success none)
        | .error e => (s, .error e)) := by
  have htr := Json.truthy_of_item_ok hstmt
  by_cases hlen : (stmts.filter (sidKeeps sid)).length = stmts.length
  · simp [removeStep, removeOneBody, get_current_policy, hget, hp, htr, hstmt,
      Json.asList, filterStmts_ok hwf, hlen, pure, Except.pure]
  · by_cases hnil : stmts.filter (sidKeeps sid) = []
    · have hall : ∀ a ∈ stmts, sidKeeps sid a = false := by
        simpa using List.filter_eq_nil_iff.mp hnil
      have hzero : ¬(0 = stmts.length) := by simpa [hnil] using hlen
      cases hdel : deleteBucketPolicy s b <;>
        simp [removeStep, removeOneBody, get_current_policy, hget, hp, htr, hstmt,
          Json.asList, filterStmts_ok hwf, hlen, hnil, hall, hzero, hdel, pure,
          Except.pure, Except.map]
    · have hnall : ¬∀ a ∈ stmts, sidKeeps sid a = false :=
        fun hall => hnil (List.filter_eq_nil_iff.mpr (by simpa using hall))
      cases hput : putBucketPolicy s b
          (p.objSet "Statement" (.arr (stmts.filter (sidKeeps sid)))) <;>
        simp [removeStep, removeOneBody, get_current_policy, hget, hp, htr, hstmt,
          Json.asList, filterStmts_ok hwf, hlen, hnil, hnall, hput, pure, Except.pure,
          Except.map]

/-- C2 is refuted as literally stated: when every statement of the current
policy carries the target Sid, the removal does not upload the filtered
(empty) document — it deletes the policy, so the bucket ends with no stored
document at all.  Concretely, removing Sid "A" from a policy whose single
statement has Sid "A" reports success and leaves the bucket with no policy,
hence with no uploaded filtered document. -/
theorem remove_upload_counterexample :
    stmtA.pyGet "Sid" = .ok (.str "A")
    ∧ (removeStep (storeWith (some polA)) "b" "A").2 = .success none
    ∧ (removeStep (storeWith (some polA)) "b" "A").1.policies "b" = none
    ∧ ∀ q : Json, (removeStep (storeWith (some polA)) "b" "A").1.policies "b" ≠ some q := by
  have h3 : (removeStep (storeWith (some polA)) "b" "A").1.policies "b" = none := by
    decide
  exact ⟨rfl, by decide, h3, fun q hq => by rw [h3] at hq; cases hq⟩

/-- C2 (amended): for every well-formed current policy and target Sid:
if some statement's Sid equals the target, the removal filters out every
statement whose Sid equals the target — strictly decreasing the statement
count by at least one — and uploads the filtered document when at least one
statement remains (when none remains the policy is deleted instead, the
amendment forced by the counterexample); if no statement's Sid equals the
target, the stored document is left as-is and the reported status is
skipped, "No policy with Sid ... found". -/
theorem remove_correctness (s : S3) (b sid : String) (p : Json) (stmts : List Json)
    (hget : s.getFails b = false) (hput : s.putFails b = false)
    (hdel : s.delFails b = false) (hp : s.policies b = some p)
    (hstmt : p.item "Statement" = .ok (.arr stmts)) (hwf : StmtsWF stmts) :
    ((∃ st ∈ stmts, st.pyGet "Sid" = .ok (.str sid)) →
      (stmts.filter (sidKeeps sid)).length < stmts.length
      ∧ (∀ st ∈ stmts.filter (sidKeeps sid), st.pyGet "Sid" ≠ .ok (.str sid))
      ∧ (removeStep s b sid).2 = .success none
      ∧ (removeStep s b sid).1.policies b =
          (if (stmts.filter (sidKeeps sid)).isEmpty then none
           else some (p.objSet "Statement" (.arr (stmts.filter (sidKeeps sid))))))
    ∧ ((∀ st ∈ stmts, st.pyGet "Sid" ≠ .ok (.str sid)) →
      removeStep s b sid = (s, .skipped ("No policy with Sid " ++ sid ++ " found"))) := by
  have heval := removeStep_eval s b sid p stmts hget hp hstmt hwf
  constructor
  · intro hex
    obtain ⟨w, hwmem, hwsid⟩ := hex
    have hwk : ¬(sidKeeps sid w = true) :=
      fun htr => (sidKeeps_true_iff hwsid).1 htr rfl
    have hlt : (stmts.filter (sidKeeps sid)).length < stmts.length :=
      List.length_filter_lt_length_iff_exists.mpr ⟨w, hwmem, hwk⟩
    have hlen : ¬((stmts.filter (sidKeeps sid)).length = stmts.length) :=
      Nat.ne_of_lt hlt
    have hmem : ∀ st ∈ stmts.filter (sidKeeps sid), st.pyGet "Sid" ≠ .ok (.str sid) :=
      fun st hst => pyGet_ne_of_sidKeeps (List.mem_filter.mp hst).2
    refine ⟨hlt, hmem, ?_, ?_⟩
    · rw [heval, if_neg hlen]
      by_cases hnil : stmts.filter (sidKeeps sid) = []
      · simp [hnil, deleteBucketPolicy, hdel]
      · simp [List.isEmpty_iff, hnil, putBucketPolicy, hput]
    · rw [heval, if_neg hlen]
      by_cases hnil : stmts.filter (sidKeeps sid) = []
      · simp [hnil, deleteBucketPolicy, hdel, Function.update_same]
      · simp [List.isEmpty_iff, hnil, putBucketPolicy, hput, Function.update_same]
  · intro hall
    have hkeep : ∀ a ∈ stmts, sidKeeps sid a = true := by
      intro a ha
      obtain ⟨o, ho⟩ := hwf a ha
      have : o ≠ .str sid := fun hc => hall a ha (by rw [ho, hc])
      exact (sidKeeps_true_iff ho).2 this
    have hlen : (stmts.filter (sidKeeps sid)).length = stmts.length := by
      rw [List.filter_eq_self.mpr hkeep]
    rw [heval, if_pos hlen]

theorem remove_correctness_witness :
    StmtsWF [stmtA, stmtB]
    ∧ (removeStep (storeWith (some polAB)) "b" "A").2 = .success none
    ∧ (removeStep (storeWith (some polAB)) "b" "A").1.policies "b" =
        (if ([stmtA, stmtB].filter (sidKeeps "A")).isEmpty then none
         else some (polAB.objSet "Statement" (.arr ([stmtA, stmtB].filter (sidKeeps "A"))))) := by
  have hwf : StmtsWF [stmtA, stmtB] := by
    intro st hst
    fin_cases hst <;> exact ⟨_, rfl⟩
  have h := (remove_correctness (storeWith (some polAB)) "b" "A" polAB [stmtA, stmtB]
      rfl rfl rfl rfl rfl hwf).1 ⟨stmtA, by simp, rfl⟩
  exact ⟨hwf, h.2.2.1, h.2.2.2⟩

/-- C4: for a well-formed current policy, when every statement carries the
target Sid the removal deletes the bucket policy entirely (the bucket ends
with no stored document) — an empty-statement document is never uploaded —
and when at least one statement survives, the filtered (non-empty) document
is uploaded instead. -/
theorem remove_full_deletion (s : S3) (b sid : String) (p : Json) (stmts : List Json)
    (hget : s.getFails b = false) (hput : s.putFails b = false)
    (hdel : s.delFails b = false) (hp : s.policies b = some p)
    (hstmt : p.item "Statement" = .ok (.arr stmts)) (hwf : StmtsWF stmts) :
    ((stmts ≠ [] ∧ ∀ st ∈ stmts, st.pyGet "Sid" = .ok (.str sid)) →
      (removeStep s b sid).1.policies b = none
      ∧ (removeStep s b sid).2 = .success none)
    ∧ (((∃ st ∈ stmts, st.pyGet "Sid" = .ok (.str sid))
        ∧ (∃ st ∈ stmts, st.pyGet "Sid" ≠ .ok (.str sid))) →
      stmts.filter (sidKeeps sid) ≠ []
      ∧ (removeStep s b sid).1.policies b
          = some (p.objSet "Statement" (.arr (stmts.filter (sidKeeps sid))))) := by
  have heval := removeStep_eval s b sid p stmts hget hp hstmt hwf
  constructor
  · rintro ⟨hne, hall⟩
    have hnil : stmts.filter (sidKeeps sid) = [] := by
      refine List.filter_eq_nil_iff.mpr (fun a ha => ?_)
      intro htr
      exact (sidKeeps_true_iff (hall a ha)).1 htr rfl
    have hlen : ¬((stmts.filter (sidKeeps sid)).length = stmts.length) := by
      rw [hnil]
      simpa using fun hc => hne (List.length_eq_zero.mp hc.symm)
    rw [heval, if_neg hlen]
    simp [hnil, deleteBucketPolicy, hdel, Function.update_same]
  · rintro ⟨⟨w, hwmem, hwsid⟩, ⟨u, humem, husid⟩⟩
    have hwk : ¬(sidKeeps sid w = true) :=
      fun htr => (sidKeeps_true_iff hwsid).1 htr rfl
    have hlen : ¬((stmts.filter (sidKeeps sid)).length = stmts.length) :=
      Nat.ne_of_lt (List.length_filter_lt_length_iff_exists.mpr ⟨w, hwmem, hwk⟩)
    obtain ⟨o, ho⟩ := hwf u humem
    have huk : sidKeeps sid u = true :=
      (sidKeeps_true_iff ho).2 (fun hc => husid (by rw [ho, hc]))
    have hnil : stmts.filter (sidKeeps sid) ≠ [] := by
      intro hc
      have := List.filter_eq_nil_iff.mp hc u humem
      exact this huk
    refine ⟨hnil, ?_⟩
    rw [heval, if_neg hlen]
    simp [List.isEmpty_iff, hnil, putBucketPolicy, hput, Function.update_same]

theorem remove_full_deletion_witness :
    ([stmtA] ≠ [] ∧ ∀ st ∈ [stmtA], st.pyGet "Sid" = .ok (.str "A"))
    ∧ (removeStep (storeWith (some polA)) "b" "A").1.policies "b" = none
    ∧ (removeStep (storeWith (some polA)) "b" "A").2 = .success none := by
  have hwf : StmtsWF [stmtA] := by
    intro st hst
    fin_cases hst
    exact ⟨_, rfl⟩
  have hall : ∀ st ∈ [stmtA], st.pyGet "Sid" = .ok (.str "A") := by
    intro st hst
    fin_cases hst
    rfl
  have h := (remove_full_deletion (storeWith (some polA)) "b" "A" polA [stmtA]
      rfl rfl rfl rfl rfl hwf).1 ⟨by decide, hall⟩
  exact ⟨⟨by decide, hall⟩, h⟩

/-- C9: for every bucket whose current policy contains a statement sharing
the substituted template's statement Sid, the apply operation performs no
policy write for that bucket — the whole store, in particular the bucket's
stored policy, is identical before and after — and the bucket's result is
the skipped message. -/
theorem apply_skip_no_mutation (s : S3) (b account_id ts : String) (t p sidV : Json)
    (stmts : List Json) (bk : Bool)
    (hget : s.getFails b = false) (hp : s.policies b = some p)
    (hstmt : p.item "Statement" = .ok (.arr stmts)) (hwf : StmtsWF stmts)
    (hts : templateSid (replace_placeholders b t) = .ok sidV)
    (hmatch : ∃ st ∈ stmts, st.pyGet "Sid" = .ok sidV) :
    (applyStep s b t bk account_id ts).1 = s
    ∧ (applyStep s b t bk account_id ts).1.policies b = s.policies b
    ∧ (applyStep s b t bk account_id ts).2
        = .skipped ("Policy with Sid " ++ sidV.pyStr ++ " already exists") := by
  rw [applyStep_skip_eval s b account_id ts t p sidV stmts bk hget hp hstmt hwf hts hmatch]
  exact ⟨rfl, rfl, rfl⟩

theorem apply_skip_no_mutation_witness :
    StmtsWF [stmtA]
    ∧ templateSid (replace_placeholders "b" tmplA) = .ok (.str "A")
    ∧ (applyStep (storeWith (some polA)) "b" tmplA true "acct" "ts").1 = storeWith (some polA)
    ∧ (applyStep (storeWith (some polA)) "b" tmplA true "acct" "ts").2
        = .skipped ("Policy with Sid " ++ (Json.str "A").pyStr ++ " already exists") := by
  have hid : replace_placeholders "b" tmplA = tmplA :=
    replace_placeholders_id "b" tmplA (by decide)
  have hts : templateSid (replace_placeholders "b" tmplA) = .ok (.str "A") := by
    rw [hid]
    rfl
  have hwf : StmtsWF [stmtA] := by
    intro st hst
    fin_cases hst
    exact ⟨_, rfl⟩
  have h := apply_skip_no_mutation (storeWith (some polA)) "b" "acct" "ts" tmplA polA
    (.str "A") [stmtA] true rfl rfl rfl hwf hts ⟨stmtA, by simp, rfl⟩
  exact ⟨hwf, hts, h.1, h.2.2⟩

/-- C1: for every bucket and template whose substituted document holds
exactly one statement carrying a Sid, running apply twice on the same
bucket (from any state in which the first run does not fail: no client
errors and a well-formed current policy, if any) makes the second run
report skipped and leaves the stored policy — in particular its statement
count — unchanged by the second run. -/
theorem apply_merge_skip_idempotent (s : S3) (b account_id ts1 ts2 : String)
    (t st0 sidV : Json) (bk : Bool)
    (hget : s.getFails b = false) (hput : s.putFails b = false)
    (htS : (replace_placeholders b t).item "Statement" = .ok (.arr [st0]))
    (hsid : st0.item "Sid" = .ok sidV)
    (hcur : s.policies b = none ∨ ∃ p stmts, s.policies b = some p
        ∧ p.item "Statement" = .ok (.arr stmts) ∧ StmtsWF stmts) :
    (applyStep (applyStep s b t bk account_id ts1).1 b t bk account_id ts2).2
        = .skipped ("Policy with Sid " ++ sidV.pyStr ++ " already exists")
    ∧ (applyStep (applyStep s b t bk account_id ts1).1 b t bk account_id ts2).1
        = (applyStep s b t bk account_id ts1).1
    ∧ stmtCount
        ((applyStep (applyStep s b t bk account_id ts1).1 b t bk account_id ts2).1.policies b)
      = stmtCount ((applyStep s b t bk account_id ts1).1.policies b) := by
  have hts : templateSid (replace_placeholders b t) = .ok sidV := by
    simp [templateSid, htS, Json.index, hsid]
  have hpg : st0.pyGet "Sid" = .ok sidV := Json.pyGet_of_item_ok hsid
  have key : ∀ s1 : S3, s1.getFails b = false →
      (∃ p1 stmts1, s1.policies b = some p1 ∧ p1.item "Statement" = .ok (.arr stmts1)
        ∧ StmtsWF stmts1 ∧ ∃ st ∈ stmts1, st.pyGet "Sid" = .ok sidV) →
      applyStep s1 b t bk account_id ts2
        = (s1, .skipped ("Policy with Sid " ++ sidV.pyStr ++ " already exists")) := by
    rintro s1 hg ⟨p1, stmts1, hp1, hstmt1, hwf1, hm1⟩
    exact applyStep_skip_eval s1 b account_id ts2 t p1 sidV stmts1 bk hg hp1 hstmt1 hwf1 hts hm1
  have hH : ((applyStep s b t bk account_id ts1).1.getFails b = false)
      ∧ (∃ p1 stmts1, (applyStep s b t bk account_id ts1).1.policies b = some p1
          ∧ p1.item "Statement" = .ok (.arr stmts1)
          ∧ StmtsWF stmts1 ∧ ∃ st ∈ stmts1, st.pyGet "Sid" = .ok sidV) := by
    have hwf0 : StmtsWF [st0] := by
      intro st hst
      rw [List.mem_singleton] at hst
      subst hst
      exact ⟨sidV, hpg⟩
    rcases hcur with hnone | ⟨p, stmts, hp, hstmt, hwf⟩
    · rw [applyStep_noPolicy_eval s b account_id ts1 t bk hget hnone hput]
      refine ⟨hget, replace_placeholders b t, [st0], ?_, htS, hwf0,
        ⟨st0, List.mem_singleton_self _, hpg⟩⟩
      simp [Function.update_same]
    · by_cases hm : ∃ st ∈ stmts, st.pyGet "Sid" = .ok sidV
      · rw [applyStep_skip_eval s b account_id ts1 t p sidV stmts bk hget hp hstmt hwf hts hm]
        exact ⟨hget, p, stmts, hp, hstmt, hwf, hm⟩
      · have hnomatch : ∀ st ∈ stmts, ∃ o, st.pyGet "Sid" = .ok o ∧ o ≠ sidV := by
          intro st hst
          obtain ⟨o, ho⟩ := hwf st hst
          exact ⟨o, ho, fun hc => hm ⟨st, hst, by rw [ho, hc]⟩⟩
        have hchk : policyExistsCheck (templateSid (replace_placeholders b t)) stmts
            = .ok false := by
          rw [hts, policyExistsCheck_eq_go]
          exact anyMatchGo_false hnomatch
        rw [applyStep_merge_eval s b account_id ts1 t p stmts [st0] bk hget hp hstmt hchk
          htS hput]
        refine ⟨hget, p.objSet "Statement" (.arr (stmts ++ [st0])), stmts ++ [st0], ?_,
          Json.objSet_item_self hstmt _, ?_, ⟨st0, ?_, hpg⟩⟩
        · simp [Function.update_same]
        · intro st hst
          rcases List.mem_append.mp hst with h | h
          · exact hwf st h
          · rw [List.mem_singleton] at h
            subst h
            exact ⟨sidV, hpg⟩
        · exact List.mem_append_right _ (List.mem_singleton_self _)
  rw [key _ hH.1 hH.2]
  exact ⟨rfl, rfl, rfl⟩

theorem apply_merge_skip_idempotent_witness :
    (replace_placeholders "b" tmplA).item "Statement"
        = .ok (.arr [Json.obj [("Sid", Json.str "A"), ("Effect", Json.str "Allow")]])
    ∧ (applyStep (applyStep (storeWith none) "b" tmplA true "acct" "t1").1 "b" tmplA true
        "acct" "t2").2 = .skipped ("Policy with Sid " ++ (Json.str "A").pyStr ++ " already exists")
    ∧ stmtCount
        ((applyStep (applyStep (storeWith none) "b" tmplA true "acct" "t1").1 "b" tmplA true
          "acct" "t2").1.policies "b")
      = stmtCount ((applyStep (storeWith none) "b" tmplA true "acct" "t1").1.policies "b") := by
  have hid : replace_placeholders "b" tmplA = tmplA :=
    replace_placeholders_id "b" tmplA (by decide)
  have htS : (replace_placeholders "b" tmplA).item "Statement"
      = .ok (.arr [Json.obj [("Sid", Json.str "A"), ("Effect", Json.str "Allow")]]) := by
    rw [hid]
    rfl
  have h := apply_merge_skip_idempotent (storeWith none) "b" "acct" "t1" "t2" tmplA
    (Json.obj [("Sid", Json.str "A"), ("Effect", Json.str "Allow")]) (.str "A") true
    rfl rfl htS rfl (Or.inl rfl)
  exact ⟨htS, h.1, h.2.2⟩

/-- C10 is refuted as literally stated: with an existing policy whose
Statement list is empty, the lazy `any(...)` generator never evaluates the
template's Sid lookup, so applying a Sid-less single-statement template to
this bucket — a bucket that does have an existing policy — reports success
(the merged document is uploaded and the stored policy changes) instead of
an error result. -/
theorem sidless_template_counterexample :
    (storeWith (some polEmptyStmts)).policies "b" = some polEmptyStmts
    ∧ (applyStep (storeWith (some polEmptyStmts)) "b" tmplNoSid false "a" "t0").2
        = .success none
    ∧ (applyStep (storeWith (some polEmptyStmts)) "b" tmplNoSid false "a" "t0").1.policies "b"
        = some (Json.obj [("Statement", Json.arr [Json.obj [("Effect", Json.str "Allow")]])])
    ∧ ∀ e, (applyStep (storeWith (some polEmptyStmts)) "b" tmplNoSid false "a" "t0").2
        ≠ .error e := by
  have hid : replace_placeholders "b" tmplNoSid = tmplNoSid :=
    replace_placeholders_id "b" tmplNoSid (by decide)
  have hnew : (replace_placeholders "b" tmplNoSid).item "Statement"
      = .ok (.arr [Json.obj [("Effect", Json.str "Allow")]]) := by
    rw [hid]
    rfl
  have hchk : policyExistsCheck (templateSid (replace_placeholders "b" tmplNoSid)) []
      = .ok false := rfl
  have he := applyStep_merge_eval (storeWith (some polEmptyStmts)) "b" "a" "t0" tmplNoSid
    polEmptyStmts [] [Json.obj [("Effect", Json.str "Allow")]] false rfl rfl rfl hchk hnew rfl
  have h2 : (applyStep (storeWith (some polEmptyStmts)) "b" tmplNoSid false "a" "t0").2
      = .success none := by
    rw [he]
    rfl
  have h3 : (applyStep (storeWith (some polEmptyStmts)) "b" tmplNoSid false "a" "t0").1.policies "b"
      = some (Json.obj [("Statement", Json.arr [Json.obj [("Effect", Json.str "Allow")]])]) := by
    rw [he]
    simp [Function.update_same]
    rfl
  exact ⟨rfl, h2, h3, fun e hc => by rw [h2] at hc; cases hc⟩

/-- C10 (amended): for every template whose single substituted statement
carries no Sid key, applying it to a bucket whose existing policy has at
least one statement yields an error result (evaluating the duplicate check
raises before any write) and the store is untouched, while applying it to a
bucket with no existing policy succeeds and uploads the substituted
template.  The amendment — "has at least one statement" instead of "has an
existing policy" — is forced by the counterexample with an
empty-statement-list policy. -/
theorem sidless_template_apply (s : S3) (b account_id ts : String) (t st0 : Json)
    (bk : Bool) (e0 : String)
    (hget : s.getFails b = false) (hput : s.putFails b = false)
    (htS : (replace_placeholders b t).item "Statement" = .ok (.arr [st0]))
    (hnos : st0.item "Sid" = .error e0) :
    (∀ p q rest, s.policies b = some p → p.item "Statement" = .ok (.arr (q :: rest)) →
      ∃ e, applyStep s b t bk account_id ts = (s, .error e))
    ∧ (s.policies b = none →
      applyStep s b t bk account_id ts =
        ({ s with policies := Function.update s.policies b (some (replace_placeholders b t)) },
         .success none)) := by
  constructor
  · intro p q rest hp hstmt
    have htr := Json.truthy_of_item_ok hstmt
    have htserr : templateSid (replace_placeholders b t) = .error e0 := by
      simp [templateSid, htS, Json.index, hnos]
    cases hq : q.pyGet "Sid" with
    | error eq =>
      refine ⟨eq, ?_⟩
      simp [applyStep, applyOneBody, get_current_policy, hget, hp, htr, hstmt,
        Json.asList, load_policy_template, policyExistsCheck, hq, htserr, pure, Except.pure]
    | ok o =>
      refine ⟨e0, ?_⟩
      simp [applyStep, applyOneBody, get_current_policy, hget, hp, htr, hstmt,
        Json.asList, load_policy_template, policyExistsCheck, hq, htserr, pure, Except.pure]
  · intro hnone
    exact applyStep_noPolicy_eval s b account_id ts t bk hget hnone hput

theorem sidless_template_apply_witness :
    (replace_placeholders "b" tmplNoSid).item "Statement"
        = .ok (.arr [Json.obj [("Effect", Json.str "Allow")]])
    ∧ (Json.obj [("Effect", Json.str "Allow")]).item "Sid" = .error "KeyError: Sid"
    ∧ (∃ e, applyStep (storeWith (some polA)) "b" tmplNoSid false "a" "t0"
        = (storeWith (some polA), .error e))
    ∧ applyStep (storeWith none) "b" tmplNoSid false "a" "t0"
        = ({ storeWith none with
              policies := Function.update (storeWith none).policies "b"
                (some (replace_placeholders "b" tmplNoSid)) },
           .success none) := by
  have hid : replace_placeholders "b" tmplNoSid = tmplNoSid :=
    replace_placeholders_id "b" tmplNoSid (by decide)
  have htS : (replace_placeholders "b" tmplNoSid).item "Statement"
      = .ok (.arr [Json.obj [("Effect", Json.str "Allow")]]) := by
    rw [hid]
    rfl
  have h1 := (sidless_template_apply (storeWith (some polA)) "b" "a" "t0" tmplNoSid
    (Json.obj [("Effect", Json.str "Allow")]) false "KeyError: Sid" rfl rfl htS rfl).1
    polA stmtA [] rfl rfl
  have h2 := (sidless_template_apply (storeWith none) "b" "a" "t0" tmplNoSid
    (Json.obj [("Effect", Json.str "Allow")]) false "KeyError: Sid" rfl rfl htS rfl).2 rfl
  exact ⟨htS, rfl, h1, h2⟩

/-- C5: a policy document in which two statements share a Sid is not
rejected: the apply-side duplicate check still answers (it answers `True`
as soon as it reaches the first matching statement, whatever — even
ill-formed statements — follows it, so only the first match determines the
skip decision), and the removal filter still succeeds, removing both
sharers (so the proceed/skip decision, too, is fixed by the existence of
the first match): the result drops at least two statements and keeps no
statement whose Sid equals the target. -/
theorem duplicate_sid_first_match (xs tail : List Json) (a : Json) (sid : String)
    (hxs : ∀ st ∈ xs, ∃ o, st.pyGet "Sid" = .ok o ∧ o ≠ .str sid)
    (ha : a.pyGet "Sid" = .ok (.str sid))
    (htail : StmtsWF tail)
    (hdup : ∃ st ∈ tail, st.pyGet "Sid" = .ok (.str sid)) :
    (∀ tail2 : List Json,
      policyExistsCheck (.ok (.str sid)) (xs ++ a :: tail2) = .ok true)
    ∧ (∃ l, filterStmts sid (xs ++ a :: tail) = .ok l
        ∧ l.length + 2 ≤ (xs ++ a :: tail).length
        ∧ ∀ st ∈ l, st.pyGet "Sid" ≠ .ok (.str sid)) := by
  constructor
  · have go : ∀ xs2 : List Json, (∀ st ∈ xs2, ∃ o, st.pyGet "Sid" = .ok o ∧ o ≠ .str sid) →
        ∀ tail2 : List Json, anyMatchGo (.str sid) (xs2 ++ a :: tail2) = .ok true := by
      intro xs2 hxs2
      induction xs2 with
      | nil => intro tail2; simp [anyMatchGo, ha, Json.beq_eq_decide]
      | cons x xs' ih =>
        intro tail2
        obtain ⟨o, ho, hne⟩ := hxs2 x (List.mem_cons_self _ _)
        simp [anyMatchGo, ho, Json.beq_eq_decide, hne,
          ih (fun st hst => hxs2 st (List.mem_cons_of_mem _ hst)) tail2]
    intro tail2
    rw [policyExistsCheck_eq_go]
    exact go xs hxs tail2
  · have hwfall : StmtsWF (xs ++ a :: tail) := by
      intro st hst
      rcases List.mem_append.mp hst with h | h
      · obtain ⟨o, ho, _⟩ := hxs st h
        exact ⟨o, ho⟩
      · rcases List.mem_cons.mp h with h2 | h2
        · subst h2; exact ⟨_, ha⟩
        · exact htail st h2
    refine ⟨(xs ++ a :: tail).filter (sidKeeps sid), filterStmts_ok hwfall, ?_, ?_⟩
    · obtain ⟨w, hwmem, hwsid⟩ := hdup
      have hak : ¬(sidKeeps sid a = true) := by
        simp [sidKeeps, ha, Json.beq_eq_decide]
      have hwk : ¬(sidKeeps sid w = true) := by
        simp [sidKeeps, hwsid, Json.beq_eq_decide]
      have h1 : (xs.filter (sidKeeps sid)).length ≤ xs.length :=
        List.length_filter_le _ _
      have h2 : (tail.filter (sidKeeps sid)).length < tail.length :=
        List.length_filter_lt_length_iff_exists.mpr ⟨w, hwmem, hwk⟩
      have hsplit : (xs ++ a :: tail).filter (sidKeeps sid)
          = xs.filter (sidKeeps sid) ++ tail.filter (sidKeeps sid) := by
        rw [List.filter_append, List.filter_cons_of_neg]
        simpa using hak
      rw [hsplit]
      simp only [List.length_append, List.length_cons]
      omega
    · intro st hst
      exact pyGet_ne_of_sidKeeps (List.mem_filter.mp hst).2

theorem duplicate_sid_first_match_witness :
    stmtA.pyGet "Sid" = .ok (.str "A")
    ∧ (∃ st ∈ [stmtA], st.pyGet "Sid" = .ok (.str "A"))
    ∧ policyExistsCheck (.ok (.str "A")) ([] ++ stmtA :: [stmtB]) = .ok true
    ∧ (∃ l, filterStmts "A" ([] ++ stmtA :: [stmtA]) = .ok l
        ∧ l.length + 2 ≤ ([] ++ stmtA :: [stmtA]).length
        ∧ ∀ st ∈ l, st.pyGet "Sid" ≠ .ok (.str "A")) := by
  have hwf : StmtsWF [stmtA] := by
    intro st hst
    fin_cases hst
    exact ⟨_, rfl⟩
  have h := duplicate_sid_first_match [] [stmtA] stmtA "A" (by intro st hst; cases hst)
    rfl hwf ⟨stmtA, by simp, rfl⟩
  exact ⟨rfl, ⟨stmtA, by simp, rfl⟩, h.1 [stmtB], h.2⟩

theorem apply_policy_append (s : S3) (xs ys : List String) (t : Json) (bk : Bool)
    (acct : String) (tss : String → String) :
    apply_policy s (xs ++ ys) t bk acct tss =
      ((apply_policy (apply_policy s xs t bk acct tss).1 ys t bk acct tss).1,
       (apply_policy s xs t bk acct tss).2
         ++ (apply_policy (apply_policy s xs t bk acct tss).1 ys t bk acct tss).2) := by
  induction xs generalizing s with
  | nil => simp [apply_policy]
  | cons x xs' ih => simp [apply_policy, ih]

theorem remove_policy_append (s : S3) (xs ys : List String) (sid : String) :
    remove_policy s (xs ++ ys) sid =
      ((remove_policy (remove_policy s xs sid).1 ys sid).1,
       (remove_policy s xs sid).2
         ++ (remove_policy (remove_policy s xs sid).1 ys sid).2) := by
  induction xs generalizing s with
  | nil => simp [remove_policy]
  | cons x xs' ih => simp [remove_policy, ih]

theorem apply_policy_buckets (s : S3) (bs : List String) (t : Json) (bk : Bool)
    (acct : String) (tss : String → String) :
    (apply_policy s bs t bk acct tss).2.map Prod.fst = bs := by
  induction bs generalizing s with
  | nil => simp [apply_policy]
  | cons x bs' ih => simp [apply_policy, ih]

theorem remove_policy_buckets (s : S3) (bs : List String) (sid : String) :
    (remove_policy s bs sid).2.map Prod.fst = bs := by
  induction bs generalizing s with
  | nil => simp [remove_policy]
  | cons x bs' ih => simp [remove_policy, ih]

/-- C8: every selected bucket gets exactly one result entry, in order, for
both apply and remove; and when the per-bucket body for some bucket `bad`
raises (access denied, malformed policy, network fault, ...), that failure
is captured as an error result attached to `bad`'s entry, the store is left
as the preceding buckets left it, and every remaining bucket is processed
exactly as it would have been — the batch is never aborted. -/
theorem per_bucket_error_isolation (s : S3) (t : Json) (bk : Bool) (acct : String)
    (tss : String → String) (sid : String) (xs ys : List String) (bad : String)
    (eA eR : String)
    (hA : applyOneBody (apply_policy s xs t bk acct tss).1 bad t bk acct (tss bad)
        = .error eA)
    (hR : removeOneBody (remove_policy s xs sid).1 bad sid = .error eR) :
    (∀ bs : List String, (apply_policy s bs t bk acct tss).2.map Prod.fst = bs)
    ∧ (∀ bs : List String, (remove_policy s bs sid).2.map Prod.fst = bs)
    ∧ apply_policy s (xs ++ bad :: ys) t bk acct tss =
        ((apply_policy (apply_policy s xs t bk acct tss).1 ys t bk acct tss).1,
         (apply_policy s xs t bk acct tss).2
           ++ (bad, .error eA)
              :: (apply_policy (apply_policy s xs t bk acct tss).1 ys t bk acct tss).2)
    ∧ remove_policy s (xs ++ bad :: ys) sid =
        ((remove_policy (remove_policy s xs sid).1 ys sid).1,
         (remove_policy s xs sid).2
           ++ (bad, .error eR)
              :: (remove_policy (remove_policy s xs sid).1 ys sid).2) := by
  have hstepA : applyStep (apply_policy s xs t bk acct tss).1 bad t bk acct (tss bad)
      = ((apply_policy s xs t bk acct tss).1, .error eA) := by
    simp [applyStep, hA]
  have hstepR : removeStep (remove_policy s xs sid).1 bad sid
      = ((remove_policy s xs sid).1, .error eR) := by
    simp [removeStep, hR]
  refine ⟨fun bs => apply_policy_buckets s bs t bk acct tss,
    fun bs => remove_policy_buckets s bs sid, ?_, ?_⟩
  · rw [apply_policy_append]
    simp [apply_policy, hstepA]
  · rw [remove_policy_append]
    simp [remove_policy, hstepR]

theorem per_bucket_error_isolation_witness :
    applyOneBody (apply_policy storeGetFails [] tmplA true "a" (fun _ => "t")).1 "bad"
        tmplA true "a" "t" = .error "ClientError: get_bucket_policy"
    ∧ removeOneBody (remove_policy storeGetFails [] "A").1 "bad" "A"
        = .error "ClientError: get_bucket_policy"
    ∧ (apply_policy storeGetFails ["x", "bad", "y"] tmplA true "a"
        (fun _ => "t")).2.map Prod.fst = ["x", "bad", "y"]
    ∧ (remove_policy storeGetFails ["x", "bad", "y"] "A").2.map Prod.fst
        = ["x", "bad", "y"] := by
  have h := per_bucket_error_isolation storeGetFails tmplA true "a" (fun _ => "t") "A"
    [] ["y"] "bad" "ClientError: get_bucket_policy" "ClientError: get_bucket_policy" rfl rfl
  exact ⟨rfl, rfl, h.1 ["x", "bad", "y"], h.2.1 ["x", "bad", "y"]⟩

/-- C7: for every bucket `b`, account `a` and non-empty (truthy)
pre-mutation policy, `backup_policy` produces the backup file
`policy_backups_a/bucket_policy_backup_b_<timestamp>.json` — a path
matching the 14-digit-timestamp naming pattern — whose contents are
exactly the pre-mutation policy; with no policy it produces no file and
returns `None`. -/
theorem backup_naming_fidelity (p : Json) (bucket_name account_id ts : String)
    (hp : p.truthy = true) (hts : TimestampWF ts) :
    backup_policy (some p) bucket_name account_id ts
        = some (backupFilename account_id bucket_name ts, p)
    ∧ BackupPathMatches account_id bucket_name (backupFilename account_id bucket_name ts)
    ∧ backup_policy none bucket_name account_id ts = none := by
  refine ⟨by simp [backup_policy, hp], ⟨ts, hts, rfl⟩, rfl⟩

theorem backup_naming_fidelity_witness :
    (Json.obj [("Statement", Json.arr [Json.obj [("Sid", Json.str "S")]])]).truthy = true
    ∧ TimestampWF "20240101_120000"
    ∧ backup_policy (some (Json.obj [("Statement", Json.arr [Json.obj [("Sid", Json.str "S")]])]))
        "mybucket" "123456789012" "20240101_120000"
        = some (backupFilename "123456789012" "mybucket" "20240101_120000",
            Json.obj [("Statement", Json.arr [Json.obj [("Sid", Json.str "S")]])]) := by
  have hts : TimestampWF "20240101_120000" :=
    ⟨"20240101", "120000", rfl, rfl, by decide, by decide, rfl⟩
  exact ⟨by decide, hts,
    (backup_naming_fidelity _ "mybucket" "123456789012" _ (by decide) hts).1⟩

/-- C6: restoring from a file produced by backing up a non-empty policy
stores exactly the backed-up document on the target bucket (modulo the JSON
re-serialization identified away in this embedding), replacing whatever
policy previously existed — the prior content of the bucket is arbitrary —
with no merge, and leaves every other bucket alone. -/
theorem restore_round_trip (s : S3) (bucket_name bsrc account_id ts : String) (p : Json)
    (hp : p.truthy = true) (hput : s.putFails bucket_name = false) :
    ∃ fn, backup_policy (some p) bsrc account_id ts = some (fn, p)
    ∧ (restore_policy s bucket_name (.ok p)).1.policies bucket_name = some p
    ∧ (∀ b2, b2 ≠ bucket_name →
        (restore_policy s bucket_name (.ok p)).1.policies b2 = s.policies b2)
    ∧ (restore_policy s bucket_name (.ok p)).2 = .success none := by
  refine ⟨backupFilename account_id bsrc ts, by simp [backup_policy, hp], ?_, ?_, ?_⟩
  · simp [restore_policy, putBucketPolicy, hput, Function.update_same]
  · intro b2 hb2
    simp [restore_policy, putBucketPolicy, hput, Function.update_noteq hb2]
  · simp [restore_policy, putBucketPolicy, hput]

theorem restore_round_trip_witness :
    (Json.obj [("Statement", Json.arr [Json.obj [("Sid", Json.str "S")]])]).truthy = true
    ∧ (S3.mk (fun _ => some (Json.obj [("Version", Json.str "old")]))
        (fun _ => false) (fun _ => false) (fun _ => false)).putFails "b" = false
    ∧ ∃ fn,
        backup_policy (some (Json.obj [("Statement", Json.arr [Json.obj [("Sid", Json.str "S")]])]))
          "src" "acct" "20240101_120000" = some (fn, Json.obj [("Statement", Json.arr [Json.obj [("Sid", Json.str "S")]])])
        ∧ (restore_policy (S3.mk (fun _ => some (Json.obj [("Version", Json.str "old")]))
              (fun _ => false) (fun _ => false) (fun _ => false)) "b"
              (.ok (Json.obj [("Statement", Json.arr [Json.obj [("Sid", Json.str "S")]])]))).1.policies "b"
            = some (Json.obj [("Statement", Json.arr [Json.obj [("Sid", Json.str "S")]])])
        ∧ (∀ b2, b2 ≠ "b" →
            (restore_policy (S3.mk (fun _ => some (Json.obj [("Version", Json.str "old")]))
              (fun _ => false) (fun _ => false) (fun _ => false)) "b"
              (.ok (Json.obj [("Statement", Json.arr [Json.obj [("Sid", Json.str "S")]])]))).1.policies b2
            = (S3.mk (fun _ => some (Json.obj [("Version", Json.str "old")]))
                (fun _ => false) (fun _ => false) (fun _ => false)).policies b2)
        ∧ (restore_policy (S3.mk (fun _ => some (Json.obj [("Version", Json.str "old")]))
              (fun _ => false) (fun _ => false) (fun _ => false)) "b"
              (.ok (Json.obj [("Statement", Json.arr [Json.obj [("Sid", Json.str "S")]])]))).2
            = .success none :=
  ⟨by decide, rfl, restore_round_trip _ "b" "src" "acct" "20240101_120000" _ (by decide) rfl⟩

theorem sepJoin_cons (sep x : List Char) (xs : List (List Char)) (h : xs ≠ []) :
    sepJoin sep (x :: xs) = x ++ sep ++ sepJoin sep xs := by
  cases xs with
  | nil => exact absurd rfl h
  | cons y ys => rfl

theorem placeholder_ne_nil : placeholder.data ≠ [] := by decide

/-- Python's left-to-right scan decomposes every input into placeholder-free
segments separated by placeholder occurrences, and its output joins those
same segments with the replacement instead: every occurrence replaced,
every other character kept. -/
theorem replaceAll_decompose_aux (bd : List Char) :
    ∀ n : Nat, ∀ s : List Char, s.length ≤ n →
      ∃ segs : List (List Char), segs ≠ []
        ∧ (∀ seg ∈ segs, containsSub placeholder.data seg = false)
        ∧ s = sepJoin placeholder.data segs
        ∧ replaceAll placeholder.data bd s = sepJoin bd segs := by
  intro n
  induction n with
  | zero =>
    intro s hs
    have hs0 : s = [] := List.length_eq_zero.mp (Nat.le_zero.mp hs)
    subst hs0
    exact ⟨[[]], by simp, by decide, rfl, by simp [replaceAll, sepJoin]⟩
  | succ n ih =>
    intro s hs
    cases s with
    | nil => exact ⟨[[]], by simp, by decide, rfl, by simp [replaceAll, sepJoin]⟩
    | cons c cs =>
      by_cases hpre : placeholder.data.isPrefixOf (c :: cs)
      · have hd : replaceAll placeholder.data bd (c :: cs)
            = bd ++ replaceAll placeholder.data bd ((c :: cs).drop placeholder.data.length) := by
          rw [replaceAll]
          simp [placeholder_ne_nil, hpre]
        obtain ⟨t, ht⟩ := List.isPrefixOf_iff_prefix.mp hpre
        have hdrop : (c :: cs).drop placeholder.data.length = t := by
          rw [← ht, List.drop_left]
        have hlen : t.length ≤ n := by
          have h14 : 0 < placeholder.data.length := List.length_pos.mpr placeholder_ne_nil
          have hL : (c :: cs).length = placeholder.data.length + t.length := by
            rw [← ht, List.length_append]
          simp only [List.length_cons] at hs hL
          omega
        obtain ⟨segs2, hne2, hfree2, heq2, hrep2⟩ := ih t hlen
        refine ⟨[] :: segs2, by simp, ?_, ?_, ?_⟩
        · intro seg hseg
          rcases List.mem_cons.mp hseg with h | h
          · subst h; decide
          · exact hfree2 seg h
        · rw [sepJoin_cons _ _ _ hne2, ← heq2, ← ht]
          simp
        · rw [hd, hdrop, hrep2, sepJoin_cons _ _ _ hne2]
          simp
      · have hd : replaceAll placeholder.data bd (c :: cs)
            = c :: replaceAll placeholder.data bd cs := by
          rw [replaceAll]
          simp [hpre]
        have hlen : cs.length ≤ n := by
          simp only [List.length_cons] at hs
          omega
        obtain ⟨segs2, hne2, hfree2, heq2, hrep2⟩ := ih cs hlen
        obtain ⟨g, gs, rfl⟩ : ∃ g gs, segs2 = g :: gs := by
          cases segs2 with
          | nil => exact absurd rfl hne2
          | cons g gs => exact ⟨g, gs, rfl⟩
        have hgpre : g <+: cs := by
          cases gs with
          | nil => rw [heq2]; exact List.prefix_refl _
          | cons g2 gs2 =>
            rw [heq2, sepJoin_cons _ _ _ (by simp), List.append_assoc]
            exact List.prefix_append g _
        have hfree_head : containsSub placeholder.data (c :: g) = false := by
          have hnp : placeholder.data.isPrefixOf (c :: g) = false := by
            by_contra hcon
            have hp2 : placeholder.data.isPrefixOf (c :: g) = true := by
              simpa using hcon
            have h1 : placeholder.data <+: c :: g := List.isPrefixOf_iff_prefix.mp hp2
            have h2 : c :: g <+: c :: cs := List.cons_prefix_cons.mpr ⟨rfl, hgpre⟩
            exact hpre (List.isPrefixOf_iff_prefix.mpr (h1.trans h2))
          simp [containsSub, hnp, hfree2 g (List.mem_cons_self _ _)]
        refine ⟨(c :: g) :: gs, by simp, ?_, ?_, ?_⟩
        · intro seg hseg
          rcases List.mem_cons.mp hseg with h | h
          · subst h; exact hfree_head
          · exact hfree2 seg (List.mem_cons_of_mem _ h)
        · cases gs with
          | nil => rw [show sepJoin placeholder.data [c :: g] = c :: g from rfl]
                   rw [show sepJoin placeholder.data [g] = g from rfl] at heq2
                   rw [heq2]
          | cons g2 gs2 =>
            rw [sepJoin_cons placeholder.data (c :: g) (g2 :: gs2) (by simp), heq2,
              sepJoin_cons placeholder.data g (g2 :: gs2) (by simp)]
            simp
        · rw [hd, hrep2]
          cases gs with
          | nil => rfl
          | cons g2 gs2 =>
            rw [sepJoin_cons bd g (g2 :: gs2) (by simp),
              sepJoin_cons bd (c :: g) (g2 :: gs2) (by simp)]
            simp

theorem replaceAll_decompose (bd : List Char) (s : List Char) :
    ∃ segs : List (List Char), segs ≠ []
      ∧ (∀ seg ∈ segs, containsSub placeholder.data seg = false)
      ∧ s = sepJoin placeholder.data segs
      ∧ replaceAll placeholder.data bd s = sepJoin bd segs :=
  replaceAll_decompose_aux bd s.length s le_rfl

mutual
theorem template_substitution_go (b : String) :
    ∀ j : Json, SubstSpec b j (replace_placeholders b j)
  | .null => SubstSpec.null
  | .bool x => SubstSpec.bool x
  | .num n => SubstSpec.num n
  | .str s => by
      obtain ⟨segs, hne, hfree, heq, hrep⟩ := replaceAll_decompose b.data s.data
      have h1 : Json.str s = Json.str ⟨sepJoin placeholder.data segs⟩ := by
        cases s with
        | mk data => exact congrArg (fun l => Json.str ⟨l⟩) heq
      have h2 : replace_placeholders b (.str s) = Json.str ⟨sepJoin b.data segs⟩ := by
        show Json.str (pyReplace s placeholder b) = _
        unfold pyReplace
        rw [hrep]
      rw [h2, h1]
      exact SubstSpec.str segs hne hfree
  | .arr xs => SubstSpec.arr xs (replacePlaceholdersArr b xs) (template_substitution_arr b xs)
  | .obj kvs =>
      SubstSpec.obj kvs (replacePlaceholdersObj b kvs) (template_substitution_obj b kvs)
theorem template_substitution_arr (b : String) :
    ∀ xs : List Json, SubstSpecArr b xs (replacePlaceholdersArr b xs)
  | [] => SubstSpecArr.nil
  | x :: xs =>
      SubstSpecArr.cons x _ xs _ (template_substitution_go b x)
        (template_substitution_arr b xs)
theorem template_substitution_obj (b : String) :
    ∀ kvs : List (String × Json), SubstSpecObj b kvs (replacePlaceholdersObj b kvs)
  | [] => SubstSpecObj.nil
  | (k, v) :: kvs =>
      SubstSpecObj.cons k v _ kvs _ (template_substitution_go b v)
        (template_substitution_obj b kvs)
end

/-- C3: for every JSON document and bucket name, the template loader's
substitution relates input and output by `SubstSpec`: every nested string
value decomposes into placeholder-free segments joined by `${bucket_name}`
and is mapped to the same segments joined by the bucket name — every
occurrence of the placeholder replaced, everything else kept — while object
keys and all non-string scalar values are unchanged and lists and objects
are traversed pointwise. -/
theorem template_substitution_correct (b : String) (j : Json) :
    SubstSpec b j (replace_placeholders b j) :=
  template_substitution_go b j

end S3PM
